import Mathlib

/-!
Verification of the `ryt` downloader core against its specification.

Strings from the Rust source are modelled as `List Char` (Rust `String` /
`&str` at the code-point level, which is the granularity the cipher and
URL code operates at).  Each definition is a shallow embedding of the
correspondingly named Rust function; the source file and function are
named in the doc comment.
-/

namespace Ryt

/-- Rust `str::starts_with` on code points. -/
def strStartsWith (s pre : List Char) : Bool := pre.isPrefixOf s

/-- Rust `str::contains(substring)` on code points. -/
def strContains : List Char → List Char → Bool
  | [], needle => needle.isEmpty
  | c :: t, needle => needle.isPrefixOf (c :: t) || strContains t needle

/-- Rust `Vec::swap(i, j)` (defined when both indices are in bounds,
identity otherwise; the sources only call it in bounds). -/
def listSwap (l : List α) (i j : Nat) : List α :=
  match l.get? i, l.get? j with
  | some a, some b => (l.set i b).set j a
  | _, _ => l

/-! ## Stream descriptors and the format selector

Embedding of `src/core/video_info.rs` (`Format`, `FormatSelector`,
`QualitySelector`) and `src/platform/formats.rs` (`select_format`).
-/

/-- `Format` from `src/core/video_info.rs` (the fields `select_format`
and `is_progressive` consume). -/
structure Format where
  itag : Nat
  mime_type : List Char
  bitrate : Nat
  height : Option Nat
  audio_codec : Option (List Char)
  video_codec : Option (List Char)
  deriving DecidableEq, Repr

/-- `Format::is_progressive` from `src/core/video_info.rs`. -/
def Format.is_progressive (f : Format) : Bool :=
  strStartsWith f.mime_type "video/".data
    && (strContains f.mime_type "mp4".data || strContains f.mime_type "webm".data)
    && f.audio_codec.isSome && f.video_codec.isSome

/-- `QualitySelector` from `src/core/video_info.rs`. -/
inductive QualitySelector where
  | best
  | worst
  | itag (n : Nat)
  | height (n : Nat)
  | heightLessOrEqual (n : Nat)
  | heightGreaterOrEqual (n : Nat)
  deriving DecidableEq, Repr

/-- `FormatSelector` from `src/core/video_info.rs`. -/
structure FormatSelector where
  quality : QualitySelector
  extension : Option (List Char)
  height_limit : Option Nat
  height_min : Option Nat
  preferred_itag : Option Nat
  deriving DecidableEq, Repr

/-- `FormatSelector::new`: only the quality is set. -/
def FormatSelector.new (q : QualitySelector) : FormatSelector :=
  ⟨q, none, none, none, none⟩

/-- Errors surfaced by the format selector (`RytError::NoFormatFound`). -/
inductive SelectError where
  | noFormatFound
  deriving DecidableEq, Repr

/-- Rust `Iterator::max_by_key(|f| f.bitrate)`: the last maximal element
(`max_by_key` keeps the later element on ties). -/
def maxByBitrate (l : List Format) : Option Format :=
  l.foldl
    (fun acc f =>
      match acc with
      | none => some f
      | some g => if g.bitrate ≤ f.bitrate then some f else some g)
    none

/-- The comparator of `candidates.sort_by(|a, b| b.bitrate.cmp(&a.bitrate))`
(descending bitrate). -/
def bitrateDesc (a b : Format) : Bool := decide (b.bitrate ≤ a.bitrate)

/-- The comparator of `candidates.sort_by(|a, b| a.bitrate.cmp(&b.bitrate))`
(ascending bitrate). -/
def bitrateAsc (a b : Format) : Bool := decide (a.bitrate ≤ b.bitrate)

/-- The four filter passes at the top of `select_format`
(`src/platform/formats.rs`, lines 11-42): extension substring,
`height_limit`, `height_min`, `preferred_itag`. -/
def apply_filters (formats : List Format) (selector : FormatSelector) : List Format :=
  let candidates : List Format := formats
  let candidates : List Format :=
    match selector.extension with
    | some ext => candidates.filter (fun f => strContains f.mime_type ext)
    | none => candidates
  let candidates : List Format :=
    match selector.height_limit with
    | some height_limit =>
        candidates.filter (fun f =>
          match f.height with
          | some height => decide (height ≤ height_limit)
          | none => false)
    | none => candidates
  let candidates : List Format :=
    match selector.height_min with
    | some height_min =>
        candidates.filter (fun f =>
          match f.height with
          | some height => decide (height_min ≤ height)
          | none => false)
    | none => candidates
  match selector.preferred_itag with
  | some itag => candidates.filter (fun f => f.itag == itag)
  | none => candidates

/-- The quality dispatch of `select_format` (`src/platform/formats.rs`,
lines 49-86), applied to the filtered candidate list. -/
def select_by_quality (candidates : List Format) (q : QualitySelector) :
    Except SelectError Format :=
  match q with
  | .best =>
      match candidates.find? (fun f => f.is_progressive) with
      | some progressive => .ok progressive
      | none =>
          match (candidates.mergeSort bitrateDesc).head? with
          | some f => .ok f
          | none => .error .noFormatFound
  | .worst =>
      match (candidates.mergeSort bitrateAsc).head? with
      | some f => .ok f
      | none => .error .noFormatFound
  | .itag target =>
      match candidates.find? (fun f => f.itag == target) with
      | some f => .ok f
      | none => .error .noFormatFound
  | .height target =>
      match maxByBitrate (candidates.filter (fun f => f.height.getD 0 == target)) with
      | some f => .ok f
      | none => .error .noFormatFound
  | .heightLessOrEqual target =>
      match maxByBitrate (candidates.filter (fun f => decide (f.height.getD 0 ≤ target))) with
      | some f => .ok f
      | none => .error .noFormatFound
  | .heightGreaterOrEqual target =>
      match maxByBitrate (candidates.filter (fun f => decide (target ≤ f.height.getD 0))) with
      | some f => .ok f
      | none => .error .noFormatFound

/-- `select_format` from `src/platform/formats.rs` (lines 7-87): filter by
extension, height bounds and preferred itag, then pick by the quality
selector (`Err(NoFormatFound)` when the filtered set is empty). -/
def select_format (formats : List Format) (selector : FormatSelector) :
    Except SelectError Format :=
  let candidates := apply_filters formats selector
  if candidates.isEmpty then .error .noFormatFound
  else select_by_quality candidates selector.quality

end Ryt

namespace Ryt

/-! ## Cipher transform interpreter

Embedding of the step interpreter of `src/platform/cipher.rs`, which
appears verbatim in both `decipher_with_minimal_js` (lines 456-478) and
`find_and_apply_transform_object` (lines 718-738).
-/

/-- The three transform primitives (`"rev"`, `"spl"`, `"swp"` in the
source's `name_to_op` map). -/
inductive TransformOp where
  | rev
  | spl
  | swp
  deriving DecidableEq, Repr

/-- One iteration of the `for (op, arg) in steps` loop of
`decipher_with_minimal_js` / `find_and_apply_transform_object`. -/
def apply_transform_step (chars : List Char) (step : TransformOp × Nat) : List Char :=
  match step.1 with
  | .rev => chars.reverse
  | .spl => if step.2 < chars.length then chars.drop step.2 else chars
  | .swp =>
      if 1 < chars.length then listSwap chars 0 (step.2 % chars.length) else chars

/-- The whole step loop: fold `apply_transform_step` over the compiled
step list, starting from the signature's code points. -/
def apply_transform_steps (signature : List Char) (steps : List (TransformOp × Nat)) :
    List Char :=
  steps.foldl apply_transform_step signature

/-! ## Cipher fallback chain

Embedding of `decipher_signature` / `decipher_n_parameter` from
`src/platform/cipher.rs`.  The network fetches and the script-dependent
sub-methods are oracle parameters (their outcomes depend on remote
script text and an embedded JS engine); the control flow joining them and
the total final fallbacks are embedded concretely.
-/

/-- Cipher-layer errors (`RytError::CipherError` / transport errors). -/
inductive CipherError where
  | cipherError
  | fetchError
  | parseError
  deriving DecidableEq, Repr

/-- Method 5 of `decipher_with_full_js` (`src/platform/cipher.rs` lines
1011-1030): reverse if that changes the string, else swap first/last,
else return the input.  Total: every path returns `Ok`. -/
def full_js_simple_fallback (signature : List Char) : List Char :=
  let reversed := signature.reverse
  if reversed ≠ signature then reversed
  else if 2 ≤ signature.length then listSwap signature 0 (signature.length - 1)
  else signature

/-- `decipher_with_full_js` (`src/platform/cipher.rs` lines 944-1031).
`m1`-`m4` are the outcomes of its four script-dependent methods
(advanced pattern, full script, sanitized script, extracted function);
when all four fail, the total method-5 fallback runs. -/
def decipher_with_full_js (m1 m2 m3 m4 : Option (List Char)) (signature : List Char) :
    Except CipherError (List Char) :=
  match m1 with
  | some r => .ok r
  | none =>
      match m2 with
      | some r => .ok r
      | none =>
          match m3 with
          | some r => .ok r
          | none =>
              match m4 with
              | some r => .ok r
              | none => .ok (full_js_simple_fallback signature)

/-- `decipher_signature` (`src/platform/cipher.rs` lines 96-153): cache
lookup, then the two network fetches (errors propagate with `?`), then
the fallback chain full-JS → minimal-JS → regex → pattern fallback. -/
def decipher_signature (cached : Option (List Char))
    (fetch_js_url fetch_js : Except CipherError (List Char))
    (m1 m2 m3 m4 : Option (List Char))
    (minimal_js regex_method pattern_fallback : Except CipherError (List Char))
    (signature : List Char) : Except CipherError (List Char) :=
  match cached with
  | some v => .ok v
  | none =>
      match fetch_js_url with
      | .error e => .error e
      | .ok _ =>
          match fetch_js with
          | .error e => .error e
          | .ok _ =>
              match decipher_with_full_js m1 m2 m3 m4 signature with
              | .ok r => .ok r
              | .error _ =>
                  match minimal_js with
                  | .ok r => .ok r
                  | .error _ =>
                      match regex_method with
                      | .ok r => .ok r
                      | .error _ => pattern_fallback

/-- `apply_common_n_transformations` (`src/platform/cipher.rs` lines
282-330): five candidate transformations, the first that changes the
string wins, else the input is returned.  Total. -/
def apply_common_n_transformations (n_param : List Char) : List Char :=
  let t1 := n_param.reverse
  let t2 := if 2 ≤ n_param.length then listSwap n_param 0 (n_param.length - 1) else n_param
  let t3 := if 3 ≤ n_param.length then listSwap n_param 1 2 else n_param
  let t4 := if 2 ≤ n_param.length then n_param.drop 1 else n_param
  let t5 := if 2 ≤ n_param.length then n_param.take (n_param.length - 1) else n_param
  match [t1, t2, t3, t4, t5].find? (fun r => decide (r ≠ n_param)) with
  | some r => r
  | none => n_param

/-- Rust `str::parse::<usize>` (64-bit): optional leading `+`, then
ASCII decimal digits, value below 2^64; it fails (`ParseIntError`,
mapped to `RytError::ParseError`) on empty input, on a non-ASCII digit
(which the regex class `\d` does match), or on overflow. -/
def parseUsize (s : List Char) : Option Nat :=
  let digits := match s with
    | '+' :: t => t
    | _ => s
  if digits ≠ [] ∧ digits.all Char.isDigit then
    let v := digits.foldl (fun a c => a * 10 + (c.toNat - '0'.toNat)) 0
    if v < 2 ^ 64 then some v else none
  else none

/-- The `splice(` branch and final default of
`apply_ncode_transformation` (`src/platform/cipher.rs` lines 261-278):
parse both captured digit strings (`parse::<usize>()?` propagates a
parse error), drain the range when in bounds, else fall through to
returning the input.  `splice_capture` is `some (start, count)` exactly
when the body contains `splice(` and the splice regex captured those
digit strings. -/
def apply_ncode_splice_branch (splice_capture : Option (List Char × List Char))
    (n_param : List Char) : Except CipherError (List Char) :=
  match splice_capture with
  | some (start, delete_count) =>
      match parseUsize start with
      | none => .error .parseError
      | some start_idx =>
          match parseUsize delete_count with
          | none => .error .parseError
          | some count =>
              if start_idx < n_param.length ∧
                  start_idx + count ≤ n_param.length then
                .ok (n_param.take start_idx ++ n_param.drop (start_idx + count))
              else .ok n_param
  | none => .ok n_param

/-- `apply_ncode_transformation` (`src/platform/cipher.rs` lines
237-279).  The regex work over the located function body is an oracle:
`reverse_found` is `func_body.contains("reverse()")`, and
`slice_capture` is `some cap` exactly when the body contains `slice(`
and the slice regex captured the digit string `cap`.  The fallible
integer parses are embedded: a capture that does not parse as `usize`
propagates `RytError::ParseError` through the `?` operators. -/
def apply_ncode_transformation (reverse_found : Bool)
    (slice_capture : Option (List Char))
    (splice_capture : Option (List Char × List Char))
    (n_param : List Char) : Except CipherError (List Char) :=
  if reverse_found then .ok n_param.reverse
  else
    match slice_capture with
    | some cap =>
        match parseUsize cap with
        | none => .error .parseError
        | some start_idx =>
            if start_idx < n_param.length then .ok (n_param.drop start_idx)
            else apply_ncode_splice_branch splice_capture n_param
    | none => apply_ncode_splice_branch splice_capture n_param

/-- `decipher_n_parameter` (`src/platform/cipher.rs` lines 156-234):
cache lookup, then the two network fetches (errors propagate with
`?`).  When either ncode regex locates a function body (lines 187-223),
`apply_ncode_transformation` runs on it and its result — including a
parse error — propagates with `?`; only when no body is located does
the total common-transform fallback run.  `located` carries the
regex-capture oracles of the located body. -/
def decipher_n_parameter (cached : Option (List Char))
    (fetch_js_url fetch_js : Except CipherError (List Char))
    (located : Option (Bool × Option (List Char) × Option (List Char × List Char)))
    (n_param : List Char) : Except CipherError (List Char) :=
  match cached with
  | some v => .ok v
  | none =>
      match fetch_js_url with
      | .error e => .error e
      | .ok _ =>
          match fetch_js with
          | .error e => .error e
          | .ok _ =>
              match located with
              | some (reverse_found, slice_capture, splice_capture) =>
                  apply_ncode_transformation reverse_found slice_capture
                    splice_capture n_param
              | none => .ok (apply_common_n_transformations n_param)

/-! ## Playability classification

Embedding of the `playabilityStatus` dispatch of
`InnerTubeClient::get_player_response` (`src/platform/innertube.rs`
lines 189-231).
-/

/-- Outcomes of the playability check (`Ok` or the mapped `RytError`). -/
inductive PlayabilityOutcome where
  | ok
  | geoBlocked
  | rateLimited
  | videoUnavailable
  | ageRestricted
  | privateVideo
  deriving DecidableEq, Repr

/-- Rust `str::to_lowercase` (on the ASCII reasons at issue). -/
def strToLower (s : List Char) : List Char := s.map Char.toLower

/-- The status/reason dispatch of `get_player_response`
(`src/platform/innertube.rs` lines 189-231). -/
def classify_playability (status : Option (List Char × Option (List Char))) :
    PlayabilityOutcome :=
  match status with
  | none => .ok
  | some (st, reason) =>
      if st = "ERROR".data then
        match reason with
        | some r =>
            if strContains (strToLower r) "geograph".data
                || strContains (strToLower r) "available in your country".data then
              .geoBlocked
            else if strContains (strToLower r) "rate limit".data
                || strContains (strToLower r) "quota".data then
              .rateLimited
            else .videoUnavailable
        | none => .videoUnavailable
      else if st = "LOGIN_REQUIRED".data then .ageRestricted
      else if st = "UNPLAYABLE".data then
        match reason with
        | some r =>
            if strContains (strToLower r) "private".data then .privateVideo
            else .videoUnavailable
        | none => .videoUnavailable
      else .ok

/-- The spec's geo-block criterion, written from the spec sentence
"ERROR + reason contains country/available in (case-folded)", for
comparison with the code's classification. -/
def spec_geo_reason (r : List Char) : Bool :=
  strContains (strToLower r) "country".data
    || strContains (strToLower r) "available in".data

end Ryt

namespace Ryt

/-! ## Video-id extraction

Embedding of `extract_video_id` from `src/utils/url.rs` (lines 7-43).
The function's input is the already-parsed URL (`url::Url`); parse
failures are outside the dispatch being verified.
-/

/-- The parts of `url::Url` that `extract_video_id` consumes: the
(lowercased) host, the path, and the decoded query pairs. -/
structure ParsedUrl where
  host : Option (List Char)
  path : List Char
  query : List (List Char × List Char)
  deriving DecidableEq, Repr

/-- `RytError::InvalidUrl`. -/
inductive UrlError where
  | invalidUrl (msg : List Char)
  deriving DecidableEq, Repr

/-- Rust `str::trim_start_matches('/')`: strip every leading occurrence
of the character. -/
def trimStartMatchesChar (c : Char) : List Char → List Char
  | [] => []
  | x :: t => if x = c then trimStartMatchesChar c t else x :: t

/-- Rust `str::trim_start_matches(prefix)`: repeatedly strip the prefix
(for a non-empty prefix pattern, as used in the source). -/
def trimStartMatches (pre s : List Char) : List Char :=
  if h : pre ≠ [] ∧ pre.isPrefixOf s = true then
    trimStartMatches pre (s.drop pre.length)
  else s
termination_by s.length
decreasing_by
  have hpre : pre <+: s := List.isPrefixOf_iff_prefix.mp h.2
  have hlen : pre.length ≤ s.length := hpre.length_le
  have hpos : 0 < pre.length := List.length_pos.mpr h.1
  simp only [List.length_drop]
  omega

/-- `extract_video_id` from `src/utils/url.rs` (lines 7-43). -/
def extract_video_id (u : ParsedUrl) : Except UrlError (List Char) :=
  match u.host with
  | some host =>
      if host = "youtu.be".data then
        let path := trimStartMatchesChar '/' u.path
        if path.isEmpty then .error (.invalidUrl "Missing video ID".data)
        else .ok path
      else if host = "youtube.com".data ∨ host = "www.youtube.com".data then
        if strStartsWith u.path "/watch".data then
          match u.query.find? (fun p => decide (p.1 = "v".data)) with
          | some p => .ok p.2
          | none => .error (.invalidUrl "Missing v parameter".data)
        else if strStartsWith u.path "/shorts/".data then
          let video_id := trimStartMatches "/shorts/".data u.path
          if video_id.isEmpty then
            .error (.invalidUrl "Missing video ID in shorts path".data)
          else .ok video_id
        else .error (.invalidUrl "Unsupported video URL format".data)
      else .error (.invalidUrl "Not a supported video platform URL".data)
  | none => .error (.invalidUrl "Not a supported video platform URL".data)

/-- The parsed shape of `https://www.youtube.com/watch?v=<id>`. -/
def watchUrl (id : List Char) : ParsedUrl :=
  ⟨some "www.youtube.com".data, "/watch".data, [("v".data, id)]⟩

/-- The parsed shape of `https://youtu.be/<id>`. -/
def shortUrl (id : List Char) : ParsedUrl :=
  ⟨some "youtu.be".data, '/' :: id, []⟩

/-- The parsed shape of `https://www.youtube.com/shorts/<id>`. -/
def shortsUrl (id : List Char) : ParsedUrl :=
  ⟨some "www.youtube.com".data, "/shorts/".data ++ id, []⟩

/-! ## URL normalization

Embedding of the query-rewriting block of
`Downloader::resolve_format_url_with_cipher`
(`src/core/downloader.rs` lines 655-723), on the decoded query-pair
list of the URL.
-/

/-- A decoded query string: ordered key/value pairs. -/
abbrev Query := List (List Char × List Char)

/-- `parsed.query_pairs().find(|(k, _)| k == key)` (first value). -/
def qfind (q : Query) (key : List Char) : Option (List Char) :=
  (q.find? (fun p => decide (p.1 = key))).map Prod.snd

/-- `parsed.query_pairs().any(|(k, _)| k == key)`. -/
def qhas (q : Query) (key : List Char) : Bool :=
  q.any (fun p => decide (p.1 = key))

/-- Rust `str::parse::<u8>`: optional leading `+`, then decimal digits,
value at most 255. -/
def parseU8 (s : List Char) : Option Nat :=
  let digits := match s with
    | '+' :: t => t
    | _ => s
  if digits ≠ [] ∧ digits.all Char.isDigit then
    let v := digits.foldl (fun a c => a * 10 + (c.toNat - '0'.toNat)) 0
    if v ≤ 255 then some v else none
  else none

/-- Decimal rendering of a natural number (`new_fvip.to_string()`). -/
def natToChars (n : Nat) : List Char := Nat.toDigits 10 n

/-- The `sparams` check of the normalization block: the query's
`sparams` value, when present, contains the token `rqh`
(`sparams_has_rqh` in the source). -/
def sparams_lists_rqh (q : Query) : Bool :=
  match qfind q "sparams".data with
  | some s => strContains s "rqh".data
  | none => false

/-- The URL-normalization block of `resolve_format_url_with_cipher`
(`src/core/downloader.rs` lines 655-723): append `ratebypass=yes` and
`alr=yes` when absent, append `rqh=1` when `sparams` lists `rqh` but no
`rqh` pair exists (all flags computed on the incoming query), and
rotate a parseable `fvip=k` to `(k mod 5)+1`, rebuilt at the end of the
query. -/
def normalize_query (q : Query) : Query :=
  let q1 := q
    ++ (if qhas q "ratebypass".data then [] else [("ratebypass".data, "yes".data)])
    ++ (if qhas q "alr".data then [] else [("alr".data, "yes".data)])
    ++ (if sparams_lists_rqh q && !qhas q "rqh".data then
          [("rqh".data, "1".data)]
        else [])
  match qfind q "fvip".data with
  | some fvip_str =>
      match parseU8 fvip_str with
      | some k =>
          (q1.filter (fun p => !decide (p.1 = "fvip".data)))
            ++ [("fvip".data, natToChars (k % 5 + 1))]
      | none => q1
  | none => q1

end Ryt

namespace Ryt

/-! ## Rate limiter

Embedding of `RateLimiter` from `src/download/downloader.rs`
(lines 44-80).  Time is modelled in exact integer milliseconds
(`Instant` / `Duration` at millisecond granularity; the source's `f64`
seconds arithmetic truncates to `u64`, matching natural division here).
-/

/-- `RateLimiter` state: the configured rate, the instant stored in
`last_update`, and the cumulative `bytes_sent`. -/
structure RateLimiter where
  bytes_per_second : Nat
  last_update : Nat
  bytes_sent : Nat
  deriving DecidableEq, Repr

/-- `(elapsed.as_secs_f64() * self.bytes_per_second as f64) as u64` with
`elapsed` in milliseconds. -/
def expected_bytes (elapsed_ms bps : Nat) : Nat := elapsed_ms * bps / 1000

/-- `RateLimiter::wait_if_needed` (`src/download/downloader.rs` lines
60-79): elapsed is measured since `last_update`; on
`bytes_sent + bytes > expected` the excess is computed (the sleep is
`excess / rate` seconds, executed when longer than 1 ms); afterwards
`bytes_sent` accumulates and `last_update` is reset to `now`.  Returns
(sleep-branch taken, excess bytes, new state). -/
def wait_if_needed (st : RateLimiter) (now_ms : Nat) (bytes : Nat) :
    Bool × Nat × RateLimiter :=
  let elapsed := now_ms - st.last_update
  let expected := expected_bytes elapsed st.bytes_per_second
  let sleeps := decide (expected < st.bytes_sent + bytes)
  let excess := if sleeps then st.bytes_sent + bytes - expected else 0
  (sleeps, excess,
    { st with bytes_sent := st.bytes_sent + bytes, last_update := now_ms })

/-- Run the limiter over a trace of chunks `(arrival time in ms, size)`,
collecting the sleep decisions. -/
def run_limiter (st : RateLimiter) : List (Nat × Nat) → List Bool
  | [] => []
  | (t, b) :: rest =>
      let r := wait_if_needed st t b
      r.1 :: run_limiter r.2.2 rest

/-- The limiter the claim describes (modelled from the claim's words):
`expected` is computed from the elapsed time since the fixed start of
the download, with `bytes_sent` cumulative. -/
def wait_if_needed_fixed_start (start_ms : Nat) (st : RateLimiter) (now_ms bytes : Nat) :
    Bool × Nat × RateLimiter :=
  let elapsed := now_ms - start_ms
  let expected := expected_bytes elapsed st.bytes_per_second
  let sleeps := decide (expected < st.bytes_sent + bytes)
  let excess := if sleeps then st.bytes_sent + bytes - expected else 0
  (sleeps, excess, { st with bytes_sent := st.bytes_sent + bytes })

/-- Run of the claim's fixed-start limiter over a trace. -/
def run_limiter_fixed_start (start_ms : Nat) (st : RateLimiter) :
    List (Nat × Nat) → List Bool
  | [] => []
  | (t, b) :: rest =>
      let r := wait_if_needed_fixed_start start_ms st t b
      r.1 :: run_limiter_fixed_start start_ms r.2.2 rest

end Ryt

namespace Ryt

/-! ## Media fetcher

Embedding of `ChunkedDownloader` from `src/download/downloader.rs`.
The filesystem is the pair of the `.tmp` path's and the final path's
contents; the network is an oracle of chunk responses.
-/

/-- Abstract byte string. -/
abbrev Bytes := List Nat

/-- The two on-disk files of a download job. -/
structure FS where
  tmp : Option Bytes
  final : Option Bytes
  deriving DecidableEq, Repr

/-- Download-layer errors (`RytError::{RateLimited, DownloadFailed,
Generic}`). -/
inductive DownloadError where
  | rateLimited
  | downloadFailed
  | generic
  deriving DecidableEq, Repr

/-- The status dispatch of `download_chunk`
(`src/download/downloader.rs` lines 326-364): 2xx or 206 succeed with
the body; 403 maps to `RateLimited`; every other status maps to
`DownloadFailed`. -/
def download_chunk (status : Nat) (body : Bytes) : Except DownloadError Bytes :=
  if (200 ≤ status ∧ status < 300) ∨ status = 206 then .ok body
  else if status = 403 then .error .rateLimited
  else .error .downloadFailed

/-- `download_chunk_with_retry` (`src/download/downloader.rs` lines
302-323): one `download_chunk` call per attempt (the list holds the
per-attempt responses, one entry per retry the config allows); the
first success wins, otherwise the last error is returned. -/
def download_chunk_with_retry : List (Nat × Bytes) → Except DownloadError Bytes
  | [] => .error .generic
  | [a] => download_chunk a.1 a.2
  | a :: rest =>
      match download_chunk a.1 a.2 with
      | .ok d => .ok d
      | .error _ => download_chunk_with_retry rest

/-- `ChunkedDownloader::download` (`src/download/downloader.rs` lines
109-131): create (truncate) the `.tmp` file, stream the body into it;
on success flush and rename `.tmp` to the final path; on failure remove
the `.tmp` file and surface the error.  `chunks` is what the stream
delivered before EOF (`outcome = .ok`) or the failure. -/
def ChunkedDownloader.download (fs : FS) (chunks : List Bytes)
    (outcome : Except DownloadError Unit) : FS × Except DownloadError Unit :=
  let content : Bytes := chunks.foldl (· ++ ·) []
  match outcome with
  | .ok _ => ({ tmp := none, final := some content }, .ok ())
  | .error e => ({ tmp := none, final := fs.final }, .error e)

/-- The chunk loop of `download_with_resume`
(`src/download/downloader.rs` lines 170-204): while `downloaded <
total_size || total_size == 0`, fetch a chunk (with retry), append it
to the temp file, and in the unknown-size case stop after a short
chunk.  Returns the temp contents, the `downloaded` counter and the
outcome; `none` when the oracle runs out before the loop ends
(a non-terminal run). -/
def resume_loop (chunk_size total : Nat) :
    Bytes → Nat → List (List (Nat × Bytes)) →
      Option (Bytes × Nat × Except DownloadError Unit)
  | content, downloaded, [] =>
      if downloaded < total ∨ total = 0 then none
      else some (content, downloaded, .ok ())
  | content, downloaded, attempts :: rest =>
      if downloaded < total ∨ total = 0 then
        match download_chunk_with_retry attempts with
        | .error e => some (content, downloaded, .error e)
        | .ok data =>
            let content' := content ++ data
            let downloaded' := downloaded + data.length
            if total = 0 ∧ data.length < chunk_size then
              some (content', downloaded', .ok ())
            else resume_loop chunk_size total content' downloaded' rest
      else some (content, downloaded, .ok ())

/-- `ChunkedDownloader::download_with_resume`
(`src/download/downloader.rs` lines 134-220): resume from the existing
temp length; a failed content-length probe is caught and treated as
size 0; an already-complete temp returns `Ok` immediately (without
renaming); after the loop, rename only when data was actually
downloaded (unknown size) or the total was reached, else remove the
temp and fail. -/
def download_with_resume (fs : FS) (size_result : Except Unit Nat)
    (chunk_size : Nat) (oracle : List (List (Nat × Bytes))) :
    Option (FS × Except DownloadError Unit) :=
  let existing : Bytes := fs.tmp.getD []
  let existing_size := existing.length
  let total := match size_result with
    | .ok s => s
    | .error _ => 0
  if 0 < total ∧ total ≤ existing_size then some (fs, .ok ())
  else
    match resume_loop chunk_size total existing existing_size oracle with
    | none => none
    | some (content, _, .error e) =>
        some ({ tmp := some content, final := fs.final }, .error e)
    | some (content, downloaded, .ok _) =>
        if (total = 0 ∧ 0 < downloaded) ∨ (0 < total ∧ total ≤ downloaded) then
          some ({ tmp := none, final := some content }, .ok ())
        else
          some ({ tmp := none, final := fs.final }, .error .generic)

end Ryt

namespace Ryt

/-! ## C1: the splice primitive -/

/-- C1 counterexample: a splice step whose argument (5) is at least the
list length (3) leaves the list unchanged instead of emptying it, so
"when k is greater than or equal to the list length the resulting list
is empty" fails. -/
theorem c1_splice_counterexample :
    apply_transform_steps "abc".data [(TransformOp.spl, 5)] = "abc".data ∧
    "abc".data ≠ ([] : List Char) := by
  constructor
  · rfl
  · decide

/-- C1 (amended): in every transform program, a splice step with integer
argument k applied to the current code-point list drops the first k
elements when k is smaller than the list length, and leaves the list
unchanged (in particular, not empty) when k is at least the list
length. -/
theorem c1_splice_step (steps : List (TransformOp × Nat)) (signature : List Char)
    (k : Nat) :
    (k < (apply_transform_steps signature steps).length →
      apply_transform_steps signature (steps ++ [(TransformOp.spl, k)]) =
        (apply_transform_steps signature steps).drop k) ∧
    ((apply_transform_steps signature steps).length ≤ k →
      apply_transform_steps signature (steps ++ [(TransformOp.spl, k)]) =
        apply_transform_steps signature steps) := by
  unfold apply_transform_steps
  rw [List.foldl_append]
  simp only [List.foldl_cons, List.foldl_nil, apply_transform_step]
  constructor
  · intro h
    simp [h]
  · intro h
    have : ¬ k < (List.foldl apply_transform_step signature steps).length := by omega
    simp [this]

/-- Witness for `c1_splice_step` at a concrete program and input. -/
theorem c1_splice_step_witness :
    apply_transform_steps "abcd".data
        ([(TransformOp.rev, 0)] ++ [(TransformOp.spl, 2)]) =
      (apply_transform_steps "abcd".data [(TransformOp.rev, 0)]).drop 2 :=
  (c1_splice_step [(TransformOp.rev, 0)] "abcd".data 2).1 (by decide)

end Ryt

namespace Ryt

/-! ## C7: HTTP 416 during resume -/

/-- C7 counterexample: in a resumable download whose only range request
is answered with status 416, the run terminates with
`Err(DownloadFailed)` and nothing is committed to the final path (the
temp file persists), refuting "416 is treated as file complete and the
download terminates successfully". -/
theorem c7_416_counterexample :
    download_with_resume ⟨none, none⟩ (.ok 10) 100 [[(416, [])]] =
      some (⟨some [], none⟩, .error .downloadFailed) := by
  rfl

/-- C7 (amended): a range request answered with any status that is
neither 2xx nor 206 nor 403 — in particular 416 — is classified as
`DownloadFailed` and surfaces as an error instead of completing the
file. -/
theorem c7_non_success_status_fails (status : Nat) (body : Bytes)
    (h2 : ¬ ((200 ≤ status ∧ status < 300) ∨ status = 206))
    (h4 : status ≠ 403) :
    download_chunk status body = .error .downloadFailed := by
  simp [download_chunk, h2, h4]

/-- Witness for `c7_non_success_status_fails` at status 416. -/
theorem c7_non_success_status_fails_witness :
    download_chunk 416 [7] = .error .downloadFailed :=
  c7_non_success_status_fails 416 [7] (by omega) (by omega)

/-! ## C5: the cipher fallback chain -/

/-- C5 counterexample: when the watch-page fetch fails,
`decipher_signature` propagates the error (the `?` on
`fetch_player_js_url`) instead of returning the input unchanged, so
"sign never returns an error, including when fetching the watch page
fails" is refuted. -/
theorem c5_fetch_error_counterexample :
    decipher_signature none (.error .fetchError) (.error .fetchError)
        none none none none (.error .cipherError) (.error .cipherError)
        (.error .cipherError) "sig".data = .error .fetchError ∧
    (Except.error CipherError.fetchError : Except CipherError (List Char)) ≠
      .ok "sig".data := by
  exact ⟨rfl, by simp⟩

/-- Post-fetch failures of the ncode splice branch are exactly the
parse errors. -/
theorem apply_ncode_splice_branch_error
    (splice_capture : Option (List Char × List Char)) (n_param : List Char)
    (e : CipherError)
    (h : apply_ncode_splice_branch splice_capture n_param = .error e) :
    e = CipherError.parseError := by
  unfold apply_ncode_splice_branch at h
  repeat' split at h
  all_goals cases h <;> rfl

/-- Post-fetch failures of `apply_ncode_transformation` are exactly the
parse errors. -/
theorem apply_ncode_transformation_error (reverse_found : Bool)
    (slice_capture : Option (List Char))
    (splice_capture : Option (List Char × List Char))
    (n_param : List Char) (e : CipherError)
    (h : apply_ncode_transformation reverse_found slice_capture splice_capture
        n_param = .error e) : e = CipherError.parseError := by
  unfold apply_ncode_transformation at h
  repeat' split at h
  all_goals first
    | (cases h <;> rfl)
    | exact (Except.error.inj h).symm
    | exact apply_ncode_splice_branch_error _ _ _ h

/-- The ncode splice branch succeeds when its captures parse. -/
theorem apply_ncode_splice_branch_ok
    (splice_capture : Option (List Char × List Char)) (n_param : List Char)
    (hp : ∀ s d, splice_capture = some (s, d) →
      (parseUsize s).isSome = true ∧ (parseUsize d).isSome = true) :
    ∃ out, apply_ncode_splice_branch splice_capture n_param = .ok out := by
  cases splice_capture with
  | none => exact ⟨n_param, rfl⟩
  | some p =>
      obtain ⟨s, d⟩ := p
      obtain ⟨hs, hd⟩ := hp s d rfl
      obtain ⟨ks, hks⟩ := Option.isSome_iff_exists.mp hs
      obtain ⟨kd, hkd⟩ := Option.isSome_iff_exists.mp hd
      simp only [apply_ncode_splice_branch, hks, hkd]
      by_cases hb : ks < n_param.length ∧ ks + kd ≤ n_param.length
      · rw [if_pos hb]
        exact ⟨_, rfl⟩
      · rw [if_neg hb]
        exact ⟨_, rfl⟩

/-- `apply_ncode_transformation` succeeds when every present capture
parses. -/
theorem apply_ncode_transformation_ok (reverse_found : Bool)
    (slice_capture : Option (List Char))
    (splice_capture : Option (List Char × List Char)) (n_param : List Char)
    (hsc : ∀ cap, slice_capture = some cap → (parseUsize cap).isSome = true)
    (hspc : ∀ s d, splice_capture = some (s, d) →
      (parseUsize s).isSome = true ∧ (parseUsize d).isSome = true) :
    ∃ out, apply_ncode_transformation reverse_found slice_capture
      splice_capture n_param = .ok out := by
  cases reverse_found with
  | true => exact ⟨n_param.reverse, rfl⟩
  | false =>
      cases slice_capture with
      | none =>
          simp only [apply_ncode_transformation, Bool.false_eq_true, if_false]
          exact apply_ncode_splice_branch_ok splice_capture n_param hspc
      | some cap =>
          obtain ⟨k, hk⟩ := Option.isSome_iff_exists.mp (hsc cap rfl)
          simp only [apply_ncode_transformation, Bool.false_eq_true, if_false, hk]
          by_cases hlt : k < n_param.length
          · rw [if_pos hlt]
            exact ⟨_, rfl⟩
          · rw [if_neg hlt]
            exact apply_ncode_splice_branch_ok splice_capture n_param hspc

/-- C5 (amended): once the watch page and the player script have been
fetched successfully, `decipher_signature` always returns a value (its
terminal fallbacks are total; with every script-dependent method failed
it returns the total method-5 heuristic — reverse / swap ends, not
necessarily the identity).  `decipher_n_parameter` after successful
fetches can still fail, but only with the `ParseError` propagated from
`parse::<usize>` on a located ncode body's slice/splice argument; when
no ncode body is located, or every located capture parses, it returns a
value.  A fetch failure, by contrast, propagates as an error. -/
theorem c5_total_when_fetches_succeed (cached : Option (List Char))
    (u js : List Char) (m1 m2 m3 m4 : Option (List Char))
    (minimal_js regex_method pattern_fallback : Except CipherError (List Char))
    (located : Option (Bool × Option (List Char) × Option (List Char × List Char)))
    (signature n_param : List Char) :
    (∃ out, decipher_signature cached (.ok u) (.ok js) m1 m2 m3 m4
        minimal_js regex_method pattern_fallback signature = .ok out) ∧
    (∀ e, decipher_n_parameter cached (.ok u) (.ok js) located n_param =
        .error e → e = CipherError.parseError) ∧
    (located = none → ∃ out,
      decipher_n_parameter cached (.ok u) (.ok js) located n_param = .ok out) ∧
    (∀ reverse_found slice_capture splice_capture,
      located = some (reverse_found, slice_capture, splice_capture) →
      (∀ cap, slice_capture = some cap → (parseUsize cap).isSome = true) →
      (∀ s d, splice_capture = some (s, d) →
        (parseUsize s).isSome = true ∧ (parseUsize d).isSome = true) →
      ∃ out, decipher_n_parameter cached (.ok u) (.ok js) located n_param =
        .ok out) ∧
    (decipher_signature none (.ok u) (.ok js) none none none none
        (.error .cipherError) (.error .cipherError) (.error .cipherError)
        signature = .ok (full_js_simple_fallback signature)) := by
  refine ⟨?_, ?_, ?_, ?_, rfl⟩
  · cases cached with
    | some v => exact ⟨v, rfl⟩
    | none =>
        cases m1 with
        | some r => exact ⟨r, rfl⟩
        | none =>
            cases m2 with
            | some r => exact ⟨r, rfl⟩
            | none =>
                cases m3 with
                | some r => exact ⟨r, rfl⟩
                | none =>
                    cases m4 with
                    | some r => exact ⟨r, rfl⟩
                    | none => exact ⟨full_js_simple_fallback signature, rfl⟩
  · intro e h
    cases cached with
    | some v => simp [decipher_n_parameter] at h
    | none =>
        cases located with
        | none => simp [decipher_n_parameter] at h
        | some t =>
            obtain ⟨rf, sc, spc⟩ := t
            simp only [decipher_n_parameter] at h
            exact apply_ncode_transformation_error rf sc spc n_param e h
  · intro hl
    subst hl
    cases cached with
    | some v => exact ⟨v, rfl⟩
    | none => exact ⟨apply_common_n_transformations n_param, rfl⟩
  · intro rf sc spc hloc hsc hspc
    subst hloc
    cases cached with
    | some v => exact ⟨v, rfl⟩
    | none =>
        simp only [decipher_n_parameter]
        exact apply_ncode_transformation_ok rf sc spc n_param hsc hspc

/-- Witness for `c5_total_when_fetches_succeed`: a located ncode body
whose slice argument overflows `usize` yields exactly a parse error; no
located body yields a value; a located body whose captures parse yields
a value. -/
theorem c5_total_when_fetches_succeed_witness :
    CipherError.parseError = CipherError.parseError ∧
    (∃ out, decipher_n_parameter none (.ok "u".data) (.ok "js".data) none
        "abc".data = .ok out) ∧
    (∃ out, decipher_n_parameter none (.ok "u".data) (.ok "js".data)
        (some (false, some "2".data, some ("1".data, "1".data)))
        "abc".data = .ok out) :=
  ⟨(c5_total_when_fetches_succeed none "u".data "js".data none none none none
      (.error .cipherError) (.error .cipherError) (.error .cipherError)
      (some (false, some "99999999999999999999999".data, none))
      "sig".data "abc".data).2.1 CipherError.parseError (by rfl),
   (c5_total_when_fetches_succeed none "u".data "js".data none none none none
      (.error .cipherError) (.error .cipherError) (.error .cipherError)
      none "sig".data "abc".data).2.2.1 rfl,
   (c5_total_when_fetches_succeed none "u".data "js".data none none none none
      (.error .cipherError) (.error .cipherError) (.error .cipherError)
      (some (false, some "2".data, some ("1".data, "1".data)))
      "sig".data "abc".data).2.2.2.1 false (some "2".data)
      (some ("1".data, "1".data)) rfl
      (by
        intro cap hc
        cases hc
        rfl)
      (by
        intro s d hc
        cases hc
        exact ⟨rfl, rfl⟩)⟩

end Ryt

namespace Ryt

/-! ## C8: geo-block classification -/

/-- C8 counterexample: the reason "Not available in this country"
matches the spec's criterion (contains "country" and "available in",
case-folded) but the code classifies it as `VideoUnavailable`, because
the code matches "geograph" / "available in your country" instead. -/
theorem c8_geo_counterexample :
    spec_geo_reason "Not available in this country".data = true ∧
    classify_playability
        (some ("ERROR".data, some "Not available in this country".data)) =
      .videoUnavailable ∧
    PlayabilityOutcome.videoUnavailable ≠ PlayabilityOutcome.geoBlocked := by
  refine ⟨by decide, rfl, by decide⟩

/-- C8 (amended): the player-response fetch classifies a response as
geo-blocked exactly when `playabilityStatus.status` is `ERROR`, a
reason is present, and the case-folded reason contains "geograph" or
"available in your country". -/
theorem c8_geo_classification (st : List Char) (reason : Option (List Char)) :
    classify_playability (some (st, reason)) = .geoBlocked ↔
      st = "ERROR".data ∧ ∃ r, reason = some r ∧
        (strContains (strToLower r) "geograph".data
          || strContains (strToLower r) "available in your country".data) = true := by
  constructor
  · intro h
    simp only [classify_playability] at h
    split at h
    · rename_i hst
      split at h
      · rename_i r
        split at h
        · rename_i hg
          exact ⟨hst, r, rfl, hg⟩
        · split at h
          · exact absurd h (by decide)
          · exact absurd h (by decide)
      · exact absurd h (by decide)
    · rename_i hst
      split at h
      · exact absurd h (by decide)
      · split at h
        · split at h
          · rename_i r
            split at h
            · exact absurd h (by decide)
            · exact absurd h (by decide)
          · exact absurd h (by decide)
        · exact absurd h (by decide)
  · rintro ⟨hst, r, hr, hg⟩
    subst hst
    subst hr
    simp [classify_playability, hg]

/-- Witness for `c8_geo_classification`: a "geograph" reason is
classified as geo-blocked. -/
theorem c8_geo_classification_witness :
    classify_playability
        (some ("ERROR".data, some "Geographically restricted".data)) =
      .geoBlocked :=
  (c8_geo_classification "ERROR".data
      (some "Geographically restricted".data)).mpr
    ⟨rfl, "Geographically restricted".data, rfl, by decide⟩

end Ryt

namespace Ryt

/-! ## C9: video-id extraction -/

/-- Stripping a leading character is the identity when the character
does not occur in the list. -/
theorem trimStartMatchesChar_no_strip (c : Char) (l : List Char) (h : c ∉ l) :
    trimStartMatchesChar c l = l := by
  cases l with
  | nil => rfl
  | cons x t =>
      have hx : x ≠ c := by
        rintro rfl
        exact h (List.mem_cons_self _ _)
      simp [trimStartMatchesChar, hx]

/-- Prefix-stripping is the identity when the prefix does not match. -/
theorem trimStartMatches_no_strip (pre s : List Char)
    (h : pre.isPrefixOf s = false) : trimStartMatches pre s = s := by
  rw [trimStartMatches]
  simp [h]

/-- Prefix-stripping removes one leading copy of the prefix and stops
when the remainder does not start with it again. -/
theorem trimStartMatches_append (pre id : List Char) (hpre : pre ≠ [])
    (hnp : pre.isPrefixOf id = false) :
    trimStartMatches pre (pre ++ id) = id := by
  rw [trimStartMatches]
  have hp : pre.isPrefixOf (pre ++ id) = true :=
    List.isPrefixOf_iff_prefix.mpr (List.prefix_append pre id)
  rw [dif_pos ⟨hpre, hp⟩, List.drop_left]
  exact trimStartMatches_no_strip pre id hnp

/-- A list is not a prefix of one missing one of its characters. -/
theorem isPrefixOf_eq_false_of_not_mem {pre id : List Char} {c : Char}
    (hc : c ∈ pre) (hid : c ∉ id) : pre.isPrefixOf id = false := by
  rw [Bool.eq_false_iff]
  intro h
  exact hid ((( List.isPrefixOf_iff_prefix.mp h).sublist).subset hc)

/-- A failed prefix test cannot be repaired by extending the longer
list on the right. -/
theorem isPrefixOf_append_eq_false : ∀ (p q id : List Char),
    p.isPrefixOf q = false → p.length ≤ q.length →
      p.isPrefixOf (q ++ id) = false
  | [], _, _, h, _ => by simp [List.isPrefixOf] at h
  | _ :: _, [], _, _, hlen => by simp at hlen
  | a :: p', b :: q', id, h, hlen => by
      cases hab : a == b with
      | false => simp [List.isPrefixOf, hab]
      | true =>
          simp only [List.isPrefixOf, hab, Bool.true_and] at h
          simp only [List.cons_append, List.isPrefixOf, hab, Bool.true_and]
          have hlen' : p'.length ≤ q'.length := by
            simp at hlen
            omega
          exact isPrefixOf_append_eq_false p' q' id h hlen'

/-- C9 counterexample: a `youtu.be` URL with a 3-character path segment
yields a 3-character token — the extractor does not validate the
11-character shape. -/
theorem c9_length_counterexample :
    extract_video_id (shortUrl "abc".data) = .ok "abc".data ∧
    "abc".data.length ≠ 11 := by
  exact ⟨rfl, by decide⟩

/-- C9 (amended): `extract_video_id` returns an error or the token
taken verbatim from the URL (its length is not validated); for the
watch, short and shorts forms of the same (slash-free, non-empty) video
id the same token is returned. -/
theorem c9_same_token (id : List Char) (hne : id ≠ []) (hs : '/' ∉ id) :
    extract_video_id (watchUrl id) = .ok id ∧
    extract_video_id (shortUrl id) = .ok id ∧
    extract_video_id (shortsUrl id) = .ok id := by
  refine ⟨rfl, ?_, ?_⟩
  · simp only [extract_video_id, shortUrl]
    rw [show trimStartMatchesChar '/' ('/' :: id) = id by
      simpa [trimStartMatchesChar] using trimStartMatchesChar_no_strip '/' id hs]
    simp [hne]
  · have hnp : "/shorts/".data.isPrefixOf id = false :=
      isPrefixOf_eq_false_of_not_mem (c := '/') (by decide) hs
    have hwatch : "/watch".data.isPrefixOf ("/shorts/".data ++ id) = false :=
      isPrefixOf_append_eq_false _ _ _ (by decide) (by decide)
    have hshorts : "/shorts/".data.isPrefixOf ("/shorts/".data ++ id) = true :=
      List.isPrefixOf_iff_prefix.mpr (List.prefix_append _ _)
    simp only [extract_video_id, shortsUrl, strStartsWith]
    rw [if_neg (by decide), if_pos (by decide), if_neg (by simp [hwatch]),
      if_pos (by simp [hshorts]),
      trimStartMatches_append "/shorts/".data id (by decide) hnp]
    simp [hne]

/-- Witness for `c9_same_token` at a concrete 11-character id. -/
theorem c9_same_token_witness :
    extract_video_id (watchUrl "dQw4w9WgXcQ".data) = .ok "dQw4w9WgXcQ".data ∧
    extract_video_id (shortUrl "dQw4w9WgXcQ".data) = .ok "dQw4w9WgXcQ".data ∧
    extract_video_id (shortsUrl "dQw4w9WgXcQ".data) = .ok "dQw4w9WgXcQ".data :=
  c9_same_token "dQw4w9WgXcQ".data (by decide) (by decide)

end Ryt

namespace Ryt

/-! ## C4: rate limiter accounting -/

/-- Trace characterization of `run_limiter`, generalized over the
initial `bytes_sent`: the decision for chunk i compares the cumulative
bytes (initial plus all chunk sizes up to and including i) against the
expectation computed from the time elapsed since the previous chunk
only (`last_update` is reset on every call). -/
theorem run_limiter_getElem (bps : Nat) :
    ∀ (calls : List (Nat × Nat)) (last sent i t b : Nat),
      calls[i]? = some (t, b) →
      (run_limiter ⟨bps, last, sent⟩ calls)[i]? =
        some (decide (expected_bytes
            (t - (if i = 0 then last else ((calls[i-1]?).map Prod.fst).getD 0))
            bps < sent + ((calls.take (i + 1)).map Prod.snd).sum))
  | [], _, _, i, _, _, hc => by simp at hc
  | (t0, b0) :: rest, last, sent, i, t, b, hc => by
      cases i with
      | zero =>
          simp only [List.getElem?_cons_zero, Option.some.injEq] at hc
          obtain ⟨rfl, rfl⟩ : t0 = t ∧ b0 = b := Prod.mk.injEq .. ▸ hc
          simp [run_limiter, wait_if_needed]
      | succ j =>
          simp only [List.getElem?_cons_succ] at hc
          simp only [run_limiter, wait_if_needed, List.getElem?_cons_succ]
          rw [run_limiter_getElem bps rest t0 (sent + b0) j t b hc]
          congr 1
          rw [decide_eq_decide]
          cases j with
          | zero => simp [Nat.add_assoc]
          | succ k => simp [Nat.add_assoc]

/-- C4 counterexample: with a 1000 B/s limit, a 1000-byte chunk 10 s
after construction followed immediately by a 1-byte chunk makes the
code sleep on the second chunk (elapsed-since-previous is 0), while the
claimed fixed-start accounting would not (1001 bytes against a
10000-byte allowance); the sleep decision therefore does depend on the
interval since the previous chunk. -/
theorem c4_interval_counterexample :
    run_limiter ⟨1000, 0, 0⟩ [(10000, 1000), (10000, 1)] = [false, true] ∧
    run_limiter_fixed_start 0 ⟨1000, 0, 0⟩ [(10000, 1000), (10000, 1)] =
      [false, false] := by
  exact ⟨rfl, rfl⟩

/-- C4 (amended): `wait_if_needed` keeps `bytes_sent` cumulative but
measures `elapsed` from the previous chunk (`last_update` is reset on
every call): the sleep decision for chunk i is
`cumulative bytes through i > expected_bytes(t_i - t_(i-1), rate)`. -/
theorem c4_cumulative_bytes_interval_elapsed (bps last : Nat)
    (calls : List (Nat × Nat)) (i t b : Nat) (hc : calls[i]? = some (t, b)) :
    (run_limiter ⟨bps, last, 0⟩ calls)[i]? =
      some (decide (expected_bytes
          (t - (if i = 0 then last else ((calls[i-1]?).map Prod.fst).getD 0))
          bps < ((calls.take (i + 1)).map Prod.snd).sum)) := by
  rw [run_limiter_getElem bps calls last 0 i t b hc]
  simp

/-- Witness for `c4_cumulative_bytes_interval_elapsed` on a concrete
trace. -/
theorem c4_cumulative_bytes_interval_elapsed_witness :
    (run_limiter ⟨1000, 0, 0⟩ [(2000, 5000)])[0]? =
      some (decide (expected_bytes (2000 - 0) 1000 < [5000].sum)) := by
  have h := c4_cumulative_bytes_interval_elapsed 1000 0 [(2000, 5000)] 0 2000 5000 rfl
  simpa using h

end Ryt

namespace Ryt

/-! ## C3: URL-normalization idempotence -/

/-- `qhas` distributes over append. -/
theorem qhas_append (a b : Query) (k : List Char) :
    qhas (a ++ b) k = (qhas a k || qhas b k) := by
  simp [qhas, List.any_append]

/-- `qfind` scans left to right across an append. -/
theorem qfind_append (a b : Query) (k : List Char) :
    qfind (a ++ b) k = (qfind a k).or (qfind b k) := by
  unfold qfind
  rw [List.find?_append]
  cases List.find? (fun p => decide (p.1 = k)) a <;> simp [Option.or]

/-- Unfolding of `normalize_query` when no `fvip` pair exists: only the
three conditional appends happen. -/
theorem normalize_query_fvip_none (q : Query) (h : qfind q "fvip".data = none) :
    normalize_query q = q
      ++ (if qhas q "ratebypass".data then [] else [("ratebypass".data, "yes".data)])
      ++ (if qhas q "alr".data then [] else [("alr".data, "yes".data)])
      ++ (if sparams_lists_rqh q && !qhas q "rqh".data then
            [("rqh".data, "1".data)]
          else []) := by
  simp only [normalize_query, h]

/-- C3 counterexample: on a query carrying `fvip=1`, one normalization
produces `fvip=2` and a second produces `fvip=3`, so
normalize∘normalize differs from normalize exactly on URLs with an
fvip parameter. -/
theorem c3_fvip_counterexample :
    normalize_query (normalize_query [("fvip".data, "1".data)]) ≠
      normalize_query [("fvip".data, "1".data)] := by
  decide

/-- C3 (amended): normalization is idempotent on queries that carry no
`fvip` parameter (a parseable `fvip=k` is rotated by every pass). -/
theorem c3_normalize_idempotent_no_fvip (q : Query)
    (hf : ∀ p ∈ q, p.1 ≠ "fvip".data) :
    normalize_query (normalize_query q) = normalize_query q := by
  have hfind : qfind q "fvip".data = none := by
    unfold qfind
    rw [List.find?_eq_none.mpr]
    · rfl
    · intro x hx
      simp [hf x hx]
  have hq1 := normalize_query_fvip_none q hfind
  have k1 : ∀ key : List Char, "ratebypass".data ≠ key →
      qfind (if qhas q "ratebypass".data = true then ([] : Query)
        else [("ratebypass".data, "yes".data)]) key = none := by
    intro key hk
    by_cases hrb : qhas q "ratebypass".data = true <;>
      simp [hrb, qfind, List.find?, hk]
  have k2 : ∀ key : List Char, "alr".data ≠ key →
      qfind (if qhas q "alr".data = true then ([] : Query)
        else [("alr".data, "yes".data)]) key = none := by
    intro key hk
    by_cases hal : qhas q "alr".data = true <;>
      simp [hal, qfind, List.find?, hk]
  have k3 : ∀ key : List Char, "rqh".data ≠ key →
      qfind (if (sparams_lists_rqh q && !qhas q "rqh".data) = true then
        [("rqh".data, "1".data)] else ([] : Query)) key = none := by
    intro key hk
    by_cases hc : (sparams_lists_rqh q && !qhas q "rqh".data) = true <;>
      simp [hc, qfind, List.find?, hk]
  have h1 : qhas (normalize_query q) "ratebypass".data = true := by
    rw [hq1, qhas_append, qhas_append, qhas_append]
    cases hrb : qhas q "ratebypass".data with
    | true => simp
    | false =>
        have h11 : qhas (if (false = true) then ([] : Query)
            else [("ratebypass".data, "yes".data)]) "ratebypass".data = true := by
          decide
        rw [h11]
        simp
  have h2 : qhas (normalize_query q) "alr".data = true := by
    rw [hq1, qhas_append, qhas_append, qhas_append]
    cases hal : qhas q "alr".data with
    | true => simp
    | false =>
        have h22 : qhas (if (false = true) then ([] : Query)
            else [("alr".data, "yes".data)]) "alr".data = true := by
          decide
        rw [h22]
        simp
  have hspfind : qfind (normalize_query q) "sparams".data = qfind q "sparams".data := by
    rw [hq1, qfind_append, qfind_append, qfind_append,
      k1 "sparams".data (by decide), k2 "sparams".data (by decide),
      k3 "sparams".data (by decide)]
    cases qfind q "sparams".data <;> rfl
  have hsp : sparams_lists_rqh (normalize_query q) = sparams_lists_rqh q := by
    unfold sparams_lists_rqh
    rw [hspfind]
  have hrqh : (sparams_lists_rqh (normalize_query q)
      && !qhas (normalize_query q) "rqh".data) = false := by
    rw [hsp]
    cases hs : sparams_lists_rqh q with
    | false => rfl
    | true =>
        have hq' : qhas (normalize_query q) "rqh".data = true := by
          cases hq : qhas q "rqh".data with
          | true =>
              rw [hq1, qhas_append, qhas_append, qhas_append, hq]
              simp
          | false =>
              rw [hq1, qhas_append, qhas_append, qhas_append, hq, hs]
              have h33 : qhas (if ((true && !false) = true) then
                  [("rqh".data, "1".data)] else ([] : Query)) "rqh".data = true := by
                decide
              rw [h33]
              simp
        rw [hq']
        rfl
  have hfvip1 : qfind (normalize_query q) "fvip".data = none := by
    rw [hq1, qfind_append, qfind_append, qfind_append, hfind,
      k1 "fvip".data (by decide), k2 "fvip".data (by decide),
      k3 "fvip".data (by decide)]
    rfl
  rw [normalize_query_fvip_none (normalize_query q) hfvip1, h1, h2, hrqh]
  simp

/-- Witness for `c3_normalize_idempotent_no_fvip` on a concrete
fvip-free query. -/
theorem c3_normalize_idempotent_no_fvip_witness :
    normalize_query (normalize_query [("sparams".data, "rqh,itag".data)]) =
      normalize_query [("sparams".data, "rqh,itag".data)] :=
  c3_normalize_idempotent_no_fvip [("sparams".data, "rqh,itag".data)] (by decide)

end Ryt

namespace Ryt

/-! ## C6: the `best` quality selector -/

/-- The descending-bitrate comparator is transitive. -/
theorem bitrateDesc_trans (a b c : Format) (hab : bitrateDesc a b = true)
    (hbc : bitrateDesc b c = true) : bitrateDesc a c = true := by
  simp [bitrateDesc] at *
  omega

/-- The descending-bitrate comparator is total. -/
theorem bitrateDesc_total (a b : Format) :
    (bitrateDesc a b || bitrateDesc b a) = true := by
  simp [bitrateDesc]
  omega

/-- The head of the descending-bitrate sort is a maximal-bitrate
element of the list. -/
theorem head_mergeSort_bitrateDesc (l : List Format) (f : Format)
    (h : (l.mergeSort bitrateDesc).head? = some f) :
    f ∈ l ∧ ∀ g ∈ l, g.bitrate ≤ f.bitrate := by
  have hperm := List.mergeSort_perm l bitrateDesc
  have hsorted := List.sorted_mergeSort bitrateDesc_trans bitrateDesc_total l
  obtain ⟨t, ht⟩ : ∃ t, l.mergeSort bitrateDesc = f :: t := by
    cases hm : l.mergeSort bitrateDesc with
    | nil => rw [hm] at h; simp at h
    | cons x xs =>
        rw [hm] at h
        simp only [List.head?_cons, Option.some.injEq] at h
        exact ⟨xs, by rw [h]⟩
  constructor
  · exact hperm.mem_iff.mp (by rw [ht]; exact List.mem_cons_self _ _)
  · intro g hg
    have hg' : g ∈ l.mergeSort bitrateDesc := hperm.mem_iff.mpr hg
    rw [ht] at hg' hsorted
    rcases List.mem_cons.mp hg' with rfl | hg''
    · exact Nat.le_refl _
    · have hb := (List.pairwise_cons.mp hsorted).1 g hg''
      simpa [bitrateDesc] using hb

/-- A 360p muxed (progressive) mp4 descriptor with itag 18, listed
first. -/
def muxed360 : Format :=
  ⟨18, "video/mp4".data, 1000000, some 360, some "mp4a".data, some "avc1".data⟩

/-- A 720p muxed (progressive) mp4 descriptor with itag 22, listed
second. -/
def muxed720 : Format :=
  ⟨22, "video/mp4".data, 2000000, some 720, some "mp4a".data, some "avc1".data⟩

/-- C6 counterexample: with two muxed descriptors present, `best`
returns the first muxed descriptor in list order (360p), not the muxed
descriptor of maximum height (720p). -/
theorem c6_best_counterexample :
    select_format [muxed360, muxed720] (FormatSelector.new .best) = .ok muxed360 ∧
    muxed720.is_progressive = true ∧
    muxed360.height.getD 0 < muxed720.height.getD 0 := by
  refine ⟨rfl, by decide, by decide⟩

/-- C6 (amended): for the `best` preference on a non-empty filtered
set, the selector returns the first muxed descriptor in list order when
any muxed descriptor is present, and otherwise a descriptor of maximal
bitrate among the candidates. -/
theorem c6_best_selection (formats : List Format) (selector : FormatSelector)
    (hq : selector.quality = QualitySelector.best)
    (hne : apply_filters formats selector ≠ []) :
    (∀ p, (apply_filters formats selector).find?
        (fun f => f.is_progressive) = some p →
      select_format formats selector = .ok p) ∧
    ((apply_filters formats selector).find? (fun f => f.is_progressive) = none →
      ∃ f, select_format formats selector = .ok f ∧
        f ∈ apply_filters formats selector ∧
        ∀ g ∈ apply_filters formats selector, g.bitrate ≤ f.bitrate) := by
  have hie : (apply_filters formats selector).isEmpty = false := by
    cases hc : apply_filters formats selector with
    | nil => exact absurd hc hne
    | cons x xs => rfl
  constructor
  · intro p hp
    simp only [select_format, hie, Bool.false_eq_true, if_false, hq,
      select_by_quality, hp]
  · intro hp
    have hnil : (apply_filters formats selector).mergeSort bitrateDesc ≠ [] := by
      intro hnil
      have hperm := List.mergeSort_perm (apply_filters formats selector) bitrateDesc
      rw [hnil] at hperm
      exact hne hperm.symm.eq_nil
  
    obtain ⟨f, hf⟩ : ∃ f,
        ((apply_filters formats selector).mergeSort bitrateDesc).head? = some f := by
      cases hm : (apply_filters formats selector).mergeSort bitrateDesc with
      | nil => exact absurd hm hnil
      | cons x xs => exact ⟨x, rfl⟩
    have hmax := head_mergeSort_bitrateDesc _ f hf
    refine ⟨f, ?_, hmax.1, hmax.2⟩
    simp only [select_format, hie, Bool.false_eq_true, if_false, hq,
      select_by_quality, hp, hf]

/-- Witness for `c6_best_selection`: a singleton muxed candidate list is
selected as its own first muxed element. -/
theorem c6_best_selection_witness :
    select_format [muxed360] (FormatSelector.new .best) = .ok muxed360 :=
  (c6_best_selection [muxed360] (FormatSelector.new .best) rfl
    (by decide)).1 muxed360 rfl

end Ryt

namespace Ryt

/-! ## C10: descriptors without a height -/

/-- C10: a descriptor with no height is treated as height 0 by the
quality selectors — it is selected by `height≤(n)` for every n and by
`height(0)` exactly (and rejected by `height(m)` for m > 0) — while the
explicit `height_limit` / `height_min` filters always exclude it. -/
theorem c10_missing_height (f : Format) (n m : Nat) (hf : f.height = none)
    (hm : 0 < m) :
    select_format [f] (FormatSelector.new (.heightLessOrEqual n)) = .ok f ∧
    select_format [f] (FormatSelector.new (.height 0)) = .ok f ∧
    select_format [f] (FormatSelector.new (.height m)) = .error .noFormatFound ∧
    select_format [f] { FormatSelector.new .best with height_limit := some n } =
      .error .noFormatFound ∧
    select_format [f] { FormatSelector.new .best with height_min := some n } =
      .error .noFormatFound := by
  have hm' : (0 == m) = false := by
    simp
    omega
  refine ⟨?_, ?_, ?_, ?_, ?_⟩ <;>
    simp [select_format, apply_filters, select_by_quality, maxByBitrate,
      FormatSelector.new, hf, hm', List.filter]

/-- Witness for `c10_missing_height` at a concrete height-less
descriptor. -/
theorem c10_missing_height_witness :
    select_format [Format.mk 999 "video/mp4".data 1000000 none none none]
        (FormatSelector.new (.heightLessOrEqual 720)) =
      .ok (Format.mk 999 "video/mp4".data 1000000 none none none) :=
  (c10_missing_height (Format.mk 999 "video/mp4".data 1000000 none none none)
    720 480 rfl (by omega)).1

end Ryt

namespace Ryt

/-! ## C2: the temp-file invariant -/

/-- Across the resume loop, the temp contents only grow: the final
contents extend the initial contents. -/
theorem resume_loop_content (chunk_size total : Nat) :
    ∀ (oracle : List (List (Nat × Bytes))) (content : Bytes) (downloaded : Nat)
      (out : Bytes × Nat × Except DownloadError Unit),
      resume_loop chunk_size total content downloaded oracle = some out →
      content <+: out.1
  | [], content, downloaded, out, h => by
      simp only [resume_loop] at h
      split at h
      · cases h
      · simp only [Option.some.injEq] at h
        subst h
        exact List.prefix_refl _
  | attempts :: rest, content, downloaded, out, h => by
      simp only [resume_loop] at h
      by_cases hc : downloaded < total ∨ total = 0
      · rw [if_pos hc] at h
        cases hdcr : download_chunk_with_retry attempts with
        | error e =>
            rw [hdcr] at h
            simp only [Option.some.injEq] at h
            subst h
            exact List.prefix_refl _
        | ok data =>
            simp only [hdcr] at h
            by_cases hb : total = 0 ∧ data.length < chunk_size
            · rw [if_pos hb] at h
              simp only [Option.some.injEq] at h
              subst h
              exact List.prefix_append _ _
            · rw [if_neg hb] at h
              exact (List.prefix_append content data).trans
                (resume_loop_content chunk_size total rest (content ++ data) _ out h)
      · rw [if_neg hc] at h
        simp only [Option.some.injEq] at h
        subst h
        exact List.prefix_refl _

/-- C2: after any terminal state, in streaming mode the final path
either holds exactly the streamed bytes with no temp file left, or was
never created (the temp file is removed on failure); in resumable mode
every terminal state either committed a file extending the pre-existing
temp contents with no temp left, or left the final path absent.  The
final path never holds a partial file. -/
theorem c2_temp_file_invariant :
    (∀ (fs : FS) (chunks : List Bytes) (outcome : Except DownloadError Unit),
      fs.final = none →
      (((ChunkedDownloader.download fs chunks outcome).1.final =
            some (chunks.foldl (· ++ ·) []) ∧
          (ChunkedDownloader.download fs chunks outcome).1.tmp = none ∧
          (ChunkedDownloader.download fs chunks outcome).2 = .ok ()) ∨
        ((ChunkedDownloader.download fs chunks outcome).1.final = none ∧
          (ChunkedDownloader.download fs chunks outcome).1.tmp = none))) ∧
    (∀ (fs : FS) (size_result : Except Unit Nat) (chunk_size : Nat)
      (oracle : List (List (Nat × Bytes))) (out : FS × Except DownloadError Unit),
      fs.final = none →
      download_with_resume fs size_result chunk_size oracle = some out →
      ((∃ b, out.1.final = some b ∧ out.1.tmp = none ∧ fs.tmp.getD [] <+: b) ∨
        out.1.final = none)) := by
  constructor
  · intro fs chunks outcome hfin
    cases outcome with
    | ok u => left; simp [ChunkedDownloader.download]
    | error e => right; simp [ChunkedDownloader.download, hfin]
  · intro fs size_result chunk_size oracle out hfin h
    simp only [download_with_resume] at h
    split at h
    · simp only [Option.some.injEq] at h
      subst h
      right
      exact hfin
    · split at h
      · cases h
      · rename_i content fst e hl
        have hpre := resume_loop_content _ _ oracle _ _ _ hl
        simp only [Option.some.injEq] at h
        subst h
        right
        exact hfin
      · rename_i content downloaded u hl
        have hpre := resume_loop_content _ _ oracle _ _ _ hl
        split at h
        · simp only [Option.some.injEq] at h
          subst h
          left
          exact ⟨content, rfl, rfl, hpre⟩
        · simp only [Option.some.injEq] at h
          subst h
          right
          exact hfin

/-- Witness for `c2_temp_file_invariant`: one successful streaming run
and one successful single-chunk resumable run. -/
theorem c2_temp_file_invariant_witness :
    (((ChunkedDownloader.download ⟨none, none⟩ [[1, 2]] (.ok ())).1.final =
          some ([[1, 2]].foldl (· ++ ·) []) ∧
        (ChunkedDownloader.download ⟨none, none⟩ [[1, 2]] (.ok ())).1.tmp = none ∧
        (ChunkedDownloader.download ⟨none, none⟩ [[1, 2]] (.ok ())).2 = .ok ()) ∨
      ((ChunkedDownloader.download ⟨none, none⟩ [[1, 2]] (.ok ())).1.final = none ∧
        (ChunkedDownloader.download ⟨none, none⟩ [[1, 2]] (.ok ())).1.tmp = none)) ∧
    ((∃ b, ((FS.mk none (some [5]), Except.ok ()) :
          FS × Except DownloadError Unit).1.final = some b ∧
        ((FS.mk none (some [5]), Except.ok ()) :
          FS × Except DownloadError Unit).1.tmp = none ∧
        (FS.mk none none).tmp.getD [] <+: b) ∨
      ((FS.mk none (some [5]), Except.ok ()) :
        FS × Except DownloadError Unit).1.final = none) :=
  ⟨c2_temp_file_invariant.1 ⟨none, none⟩ [[1, 2]] (.ok ()) rfl,
   c2_temp_file_invariant.2 ⟨none, none⟩ (.ok 1) 10 [[(200, [5])]]
     ((FS.mk none (some [5]), Except.ok ()) : FS × Except DownloadError Unit)
     rfl rfl⟩

end Ryt
